import Mathlib

/-!
Shallow embedding of the placeholder-substitution, section-removal, block
generation and image-embedding engine of the xlToPptx repository
(src/app.py, src/lease_population/core.py, src/lease_population/image_handler.py,
src/block_replacer.py), together with theorems settling the frozen claims.

Python strings are modelled as Lean `String`; Python `str.strip` as
`pyStrip`, `str.lower` as `pyLower` (ASCII-faithful),
`str.replace` as `pyReplace` (all non-overlapping occurrences, left to
right, Python's empty-pattern behaviour included), and the substring test
`in` as `strContains`.  Python dicts that are only iterated in insertion
order are modelled as association lists.
-/

namespace XlToPptx

set_option maxRecDepth 8192

/-- Python `str.strip()`: drop whitespace from both ends (computed on the
character list so that concrete instances reduce). -/
def pyStrip (s : String) : String :=
  String.mk (((s.data.dropWhile Char.isWhitespace).reverse.dropWhile Char.isWhitespace).reverse)

/-- Python `str.lower()` (ASCII, matching the markers the code compares). -/
def pyLower (s : String) : String :=
  String.mk (s.data.map Char.toLower)

/-- Python `str.replace` on character lists, fuel-indexed so that the
definition is structurally recursive (the fuel is the length of the
subject string, which bounds the number of steps since every step consumes
at least one character). -/
def pyReplaceAux (pat rep : List Char) : Nat → List Char → List Char
  | 0, s => s
  | _ + 1, [] => []
  | fuel + 1, c :: rest =>
      if pat.isPrefixOf (c :: rest) then
        rep ++ pyReplaceAux pat rep fuel ((c :: rest).drop pat.length)
      else
        c :: pyReplaceAux pat rep fuel rest

/-- Python `s.replace(pat, rep)`: replaces every non-overlapping occurrence
left to right; an empty pattern inserts `rep` at every position, as in
Python. -/
def pyReplace (s pat rep : String) : String :=
  if pat.data.isEmpty then
    String.mk (rep.data ++ s.data.flatMap (fun c => c :: rep.data))
  else
    String.mk (pyReplaceAux pat.data rep.data s.data.length s.data)

/-- Substring containment on character lists (Python `pat in hay`). -/
def containsSub : List Char → List Char → Bool
  | [], pat => pat.isEmpty
  | hay@(_ :: t), pat => pat.isPrefixOf hay || containsSub t pat

/-- Python `pat in hay` for strings. -/
def strContains (hay pat : String) : Bool :=
  containsSub hay.data pat.data

/-- `normalize_placeholder_key` (src/app.py, src/lease_population/utils.py):
returns only the stripped key itself, no variants. -/
def normalize_placeholder_key (key : String) : List String :=
  [pyStrip key]

/-- `strip_brackets` (src/app.py, src/lease_population/utils.py): removes
surrounding brackets from a placeholder if present. -/
def strip_brackets (placeholder : String) : String :=
  let s := pyStrip placeholder
  match s.data with
  | '[' :: rest =>
      if rest.getLast? = some ']' then pyStrip (String.mk rest.dropLast) else s
  | _ => s

/-- Character-formatting descriptor of a run: the four attributes
`replace_in_runs` reads and writes (`font.name`, `font.size`, `font.bold`,
`font.italic`). -/
structure Fmt where
  name : Option String := none
  size : Option Nat := none
  bold : Option Bool := none
  italic : Option Bool := none
deriving DecidableEq, Repr

/-- A run: a text span with one formatting descriptor.  `highlight` models
`font.highlight_color`; `pic` models an embedded picture (the bytes handed
to `run.add_picture`). -/
structure Run where
  text : String
  font : Fmt := {}
  highlight : Option Nat := none
  pic : Option (List Nat) := none
deriving DecidableEq, Repr

/-- A paragraph: a run sequence plus the paragraph-level attributes the
embedded code touches (`alignment`, `space_after`). -/
structure Paragraph where
  runs : List Run
  alignment : Option Nat := none
  spaceAfter : Option Nat := none
deriving DecidableEq, Repr

/-- `''.join(run.text for run in runs)`. -/
def joinedText : List Run → String
  | [] => ""
  | r :: rs => r.text ++ joinedText rs

/-- A key → value mapping, in iteration (insertion) order. -/
abbrev Mapping := List (String × String)

/-- One iteration of the key loop in `replace_in_runs` (src/app.py lines
666-674): skip entries whose value strips to empty, replace the verbatim
variant, then additionally replace the bracketless form when it differs. -/
def applyEntry (t : String) (kv : String × String) : String :=
  if pyStrip kv.2 = "" then t
  else
    (normalize_placeholder_key kv.1).foldl
      (fun acc variant =>
        let acc1 := pyReplace acc variant kv.2
        let bracketless := strip_brackets variant
        if bracketless ≠ variant then pyReplace acc1 bracketless kv.2 else acc1)
      t

/-- The whole key loop of `replace_in_runs` applied to the concatenated
paragraph text. -/
def applyMapping (t : String) (m : Mapping) : String :=
  m.foldl applyEntry t

/-- The redistribution loop at the end of `replace_in_runs` (src/app.py
lines 676-686): each original run receives the slice of the new text at
its original offset with its original length (`full_text[idx:idx+run_len]`),
and all four tracked font attributes are overwritten with `fmt`, the
first run's original attributes. -/
def redistribute (fmt : Fmt) : List Char → List Run → List Run
  | _, [] => []
  | l, r :: rs =>
      { r with text := String.mk (l.take r.text.length), font := fmt }
        :: redistribute fmt (l.drop r.text.length) rs

/-- `replace_in_runs` (src/app.py lines 655-686): substitute on the
concatenated text, then re-split over the original run sequence. -/
def replace_in_runs (runs : List Run) (m : Mapping) : List Run :=
  match runs with
  | [] => []
  | r :: _ =>
      redistribute r.font (applyMapping (joinedText runs) m).data runs

/-- The guard of `process_paragraph` (src/app.py lines 688-693): some
mapping entry with a non-blank value has a variant occurring verbatim in
the joined paragraph text. -/
def gateHit (joined : String) (m : Mapping) : Bool :=
  m.any fun kv =>
    pyStrip kv.2 ≠ "" && (normalize_placeholder_key kv.1).any (fun v => strContains joined v)

/-- `process_paragraph` of `replace_placeholders_in_docx` (src/app.py):
paragraphs with no runs or no verbatim hit are left untouched. -/
def processParagraph (m : Mapping) (p : Paragraph) : Paragraph :=
  if p.runs.isEmpty then p
  else if gateHit (joinedText p.runs) m then { p with runs := replace_in_runs p.runs m }
  else p

/-- `replace_in_runs` of `LeasePopulationProcessor._replace_placeholders_in_docx`
(src/lease_population/core.py lines 313-326): same key loop, but the whole
post-substitution text is assigned to the first run and every later run is
emptied. -/
def replace_in_runs_core (runs : List Run) (m : Mapping) : List Run :=
  match runs with
  | [] => []
  | r :: rest =>
      { r with text := applyMapping (joinedText runs) m }
        :: rest.map (fun r2 => { r2 with text := "" })

/-- `process_paragraph` of `_replace_placeholders_in_docx`
(src/lease_population/core.py): same guard as the app.py version, then the
first-run rewrite. -/
def processParagraphCore (m : Mapping) (p : Paragraph) : Paragraph :=
  if p.runs.isEmpty then p
  else if gateHit (joinedText p.runs) m then { p with runs := replace_in_runs_core p.runs m }
  else p

/-- One run of the key loop of `process_paragraph` in
`replace_placeholders_in_docx_with_track_changes` (src/app.py lines
719-746): the first entry with a non-blank value whose verbatim variant —
or, failing that, whose differing bracketless form — occurs in this run's
own text is replaced (all its occurrences in the run) and the run is
highlighted yellow (7); the key loop then stops for this run. -/
def processRunTrack : Mapping → Run → Run
  | [], r => r
  | kv :: rest, r =>
      if pyStrip kv.2 = "" then processRunTrack rest r
      else
        let variant := pyStrip kv.1
        if strContains r.text variant then
          { r with text := pyReplace r.text variant kv.2, highlight := some 7 }
        else
          let bracketless := strip_brackets variant
          if bracketless ≠ variant && strContains r.text bracketless then
            { r with text := pyReplace r.text bracketless kv.2, highlight := some 7 }
          else processRunTrack rest r

/-- The same key loop in `LeasePopulationProcessor._replace_placeholders_with_track_changes`
(src/lease_population/core.py lines 362-377): identical except that it has
no bracketless branch. -/
def processRunTrackCore : Mapping → Run → Run
  | [], r => r
  | kv :: rest, r =>
      if pyStrip kv.2 = "" then processRunTrackCore rest r
      else
        let variant := pyStrip kv.1
        if strContains r.text variant then
          { r with text := pyReplace r.text variant kv.2, highlight := some 7 }
        else processRunTrackCore rest r

/-- `process_paragraph` of the track-changes path (src/app.py): each run is
scanned and rewritten in isolation. -/
def processParagraphTrack (m : Mapping) (p : Paragraph) : Paragraph :=
  { p with runs := p.runs.map (processRunTrack m) }

/-- `process_paragraph` of the core.py track-changes path: each run is
scanned and rewritten in isolation, with no bracketless branch. -/
def processParagraphTrackCore (m : Mapping) (p : Paragraph) : Paragraph :=
  { p with runs := p.runs.map (processRunTrackCore m) }

/-! ## Document tree

python-docx exposes a document as body paragraphs, body tables (whose
cells again hold paragraphs and nested tables), and per-section headers
and footers (block containers of paragraphs and tables).  `Cell` doubles
as the model of any block container (`_Cell`, `_Header`, `_Footer`). -/

mutual
inductive Table : Type where
  | mk (rows : List TRow) : Table
inductive TRow : Type where
  | mk (cells : List Cell) : TRow
inductive Cell : Type where
  | mk (paragraphs : List Paragraph) (tables : List Table) : Cell
end

def Table.rows : Table → List TRow
  | .mk r => r

def TRow.cells : TRow → List Cell
  | .mk c => c

def Cell.paragraphs : Cell → List Paragraph
  | .mk p _ => p

def Cell.tables : Cell → List Table
  | .mk _ t => t

/-- A document section: header and footer block containers. -/
structure Sec where
  header : Cell
  footer : Cell

/-- The document: body paragraphs, body tables, sections. -/
structure Doc where
  paragraphs : List Paragraph
  tables : List Table
  sections : List Sec

/-! The recursive traversal of `process_table` / `process_block`
(src/app.py lines 695-702): rows, then cells; a cell's paragraphs, then
its nested tables.  It is factored over the paragraph transformation `f`
(the Python code closes over `mapping` instead). -/

mutual
def tableMapParas (f : Paragraph → Paragraph) : Table → Table
  | .mk rows => .mk (rowsMapParas f rows)
def rowsMapParas (f : Paragraph → Paragraph) : List TRow → List TRow
  | [] => []
  | r :: rs => rowMapParas f r :: rowsMapParas f rs
def rowMapParas (f : Paragraph → Paragraph) : TRow → TRow
  | .mk cells => .mk (cellsMapParas f cells)
def cellsMapParas (f : Paragraph → Paragraph) : List Cell → List Cell
  | [] => []
  | c :: cs => cellMapParas f c :: cellsMapParas f cs
def cellMapParas (f : Paragraph → Paragraph) : Cell → Cell
  | .mk ps ts => .mk (ps.map f) (tablesMapParas f ts)
def tablesMapParas (f : Paragraph → Paragraph) : List Table → List Table
  | [] => []
  | t :: ts => tableMapParas f t :: tablesMapParas f ts
end

/-- `replace_placeholders_in_docx` (src/app.py lines 647-718): body
paragraphs, body tables (recursively), and every section's header and
footer block. -/
def replace_placeholders_in_docx (doc : Doc) (m : Mapping) : Doc :=
  { paragraphs := doc.paragraphs.map (processParagraph m),
    tables := tablesMapParas (processParagraph m) doc.tables,
    sections := doc.sections.map fun s =>
      { header := cellMapParas (processParagraph m) s.header,
        footer := cellMapParas (processParagraph m) s.footer } }

/-- `replace_placeholders_in_docx_with_track_changes` (src/app.py lines
719-766): body paragraphs; table cells one level deep (its `process_table`
does not recurse into nested tables); header and footer paragraphs only. -/
def replace_placeholders_in_docx_with_track_changes (doc : Doc) (m : Mapping) : Doc :=
  { paragraphs := doc.paragraphs.map (processParagraphTrack m),
    tables := doc.tables.map fun t =>
      Table.mk (t.rows.map fun row =>
        TRow.mk (row.cells.map fun c =>
          Cell.mk (c.paragraphs.map (processParagraphTrack m)) c.tables)),
    sections := doc.sections.map fun s =>
      { header := Cell.mk (s.header.paragraphs.map (processParagraphTrack m)) s.header.tables,
        footer := Cell.mk (s.footer.paragraphs.map (processParagraphTrack m)) s.footer.tables } }

/-! ## Conditional section remover (src/app.py lines 889-943) -/

/-- `paragraph.text`: the concatenation of the run texts. -/
def paraText (p : Paragraph) : String :=
  joinedText p.runs

/-- One line `f'{j}: {paragraphs[j].text}'` of an error context. -/
def ctxLine (paragraphs : List Paragraph) (j : Nat) : String :=
  toString j ++ ": " ++ paraText (paragraphs.getD j { runs := [] })

/-- The message raised when an END marker is missing (src/app.py lines
918-920): it embeds the two paragraphs before and five from the
unterminated start as context. -/
def endMarkerErrorMsg (endMarker label : String) (paragraphs : List Paragraph)
    (startIdx : Nat) : String :=
  let lo := startIdx - 2
  let hi := min paragraphs.length (startIdx + 5)
  let context := String.intercalate "\n" ((List.range' lo (hi - lo)).map (ctxLine paragraphs))
  "Could not find END marker '" ++ endMarker ++ "' for section '" ++ label
    ++ "'.\nContext:\n" ++ context

/-- The message raised when a START marker never occurs (src/app.py lines
921-923): it embeds every paragraph of the document as context. -/
def startMarkerErrorMsg (startMarker label : String) (paragraphs : List Paragraph) : String :=
  let context := String.intercalate "\n" ((List.range paragraphs.length).map (ctxLine paragraphs))
  "Could not find START marker '" ++ startMarker ++ "' for section '" ++ label
    ++ "'.\nParagraphs:\n" ++ context

/-- The scan loop of `find_section_indices` (src/app.py lines 905-917),
carried state: collected `(start, end)` pairs and the currently open start
index (Python's `start`; `start_idx` always equals it when set, so it is
not tracked separately). -/
def fsiGo (lowS lowE : String) :
    List Paragraph → Nat → Option Nat → List (Nat × Nat) → List (Nat × Nat) × Option Nat
  | [], _, start, acc => (acc, start)
  | p :: rest, i, start, acc =>
      let text := pyLower (pyStrip (paraText p))
      match start with
      | none =>
          if strContains text lowS then fsiGo lowS lowE rest (i + 1) (some i) acc
          else fsiGo lowS lowE rest (i + 1) none acc
      | some s =>
          if strContains text lowE then fsiGo lowS lowE rest (i + 1) none (acc ++ [(s, i)])
          else fsiGo lowS lowE rest (i + 1) (some s) acc

/-- `find_section_indices` (src/app.py lines 905-923): collect every
`(start, end)` occurrence; an unterminated start or a start marker with no
occurrence raises (modelled as `Except.error` holding the message). -/
def find_section_indices (paragraphs : List Paragraph)
    (startMarker endMarker label : String) : Except String (List (Nat × Nat)) :=
  match fsiGo (pyLower (pyStrip startMarker)) (pyLower (pyStrip endMarker)) paragraphs 0 none [] with
  | (_, some s) => .error (endMarkerErrorMsg endMarker label paragraphs s)
  | (indices, none) =>
      if indices.isEmpty && startMarker ≠ "" then
        .error (startMarkerErrorMsg startMarker label paragraphs)
      else .ok indices

/-- The deletion loop of `remove_acknowledgment_blocks_enforced`
(src/app.py lines 938-941): the paragraph objects at the original indices
covered by some collected `(start, end)` range (inclusive) are removed.
The Python code deletes in reverse sorted order from a snapshot list of
the paragraph elements, which for the non-overlapping ranges the scan
produces removes exactly the elements indexed by the ranges. -/
def applyRemovals (paragraphs : List Paragraph) (pairs : List (Nat × Nat)) : List Paragraph :=
  (paragraphs.enum.filter fun ip =>
      ! pairs.any (fun se => decide (se.1 ≤ ip.1 ∧ ip.1 ≤ se.2))).map (·.2)

/-- `remove_acknowledgment_blocks_enforced` (src/app.py lines 889-943) on
the body paragraph list.  The returned pair is the paragraph list after
the call together with the raised error, if any: both marker-pair
resolutions happen before any deletion, and an exception leaves the list
as it was. -/
def remove_acknowledgment_blocks_enforced (paragraphs : List Paragraph)
    (granteeType : String) : List Paragraph × Option String :=
  let gt := pyLower (pyStrip granteeType)
  if gt = "individual" then
    match find_section_indices paragraphs "[trust/entity name]" "my commission expires:___"
        "Entity Section 1" with
    | .error e => (paragraphs, some e)
    | .ok entity1 =>
        match find_section_indices paragraphs "acknowledgment block for entity or trust"
            "(signature of notary public)" "Entity Section 2" with
        | .error e => (paragraphs, some e)
        | .ok entity2 => (applyRemovals paragraphs (entity1 ++ entity2), none)
  else
    match find_section_indices paragraphs "grantor:" "name:" "Individual Section 1" with
    | .error e => (paragraphs, some e)
    | .ok ind1 =>
        match find_section_indices paragraphs "acknowledgment block for individual"
            "(signature of notary public)" "Individual Section 2" with
        | .error e => (paragraphs, some e)
        | .ok ind2 => (applyRemovals paragraphs (ind1 ++ ind2), none)

/-- `remove_entity_signature_block` (src/app.py lines 870-888): drop the
first paragraph equal (stripped, lowercased) to `[trust/entity name]` and
the following three paragraphs. -/
def remove_entity_signature_block (paragraphs : List Paragraph) : List Paragraph :=
  match paragraphs.findIdx? (fun p => pyLower (pyStrip (paraText p)) = "[trust/entity name]") with
  | none => paragraphs
  | some idx =>
      let e := min (idx + 4) paragraphs.length
      (paragraphs.enum.filter fun ip => ! decide (idx ≤ ip.1 ∧ ip.1 < e)).map (·.2)

/-! ## Placeholder mapper and the `/lease_population_replace` endpoint -/

/-- Python dict construction from key/value pairs: a repeated key keeps its
first position and takes its last value. -/
def dictInsert (d : Mapping) (kv : String × String) : Mapping :=
  if d.any (fun e => e.1 == kv.1) then
    d.map (fun e => if e.1 == kv.1 then (e.1, kv.2) else e)
  else d ++ [kv]

/-- `{k: v for ...}` over the pairs in order. -/
def pyDict (l : Mapping) : Mapping :=
  l.foldl dictInsert []

/-- `LeasePopulationProcessor._parse_mapping` (src/lease_population/core.py
lines 193-202).  The argument is the parsed JSON: `none` stands for a
missing/`undefined`/`null` mapping (or unparseable JSON), `some raw` for a
JSON list of `{key, value}` objects.  Entries whose value strips to empty
are dropped; there is no empty-key or duplicate-key validation, a repeated
key silently keeps the last value. -/
def parse_mapping : Option Mapping → Except String Mapping
  | none => .error "No key-value mapping provided"
  | some raw =>
      if raw.isEmpty then .error "Invalid mapping format"
      else .ok (pyDict (raw.filter fun kv => pyStrip kv.2 ≠ ""))

/-- The endpoint `lease_population_replace` (src/app.py lines 945-989).
`mappingRaw` is the parsed JSON list; `partyType` is the form field
(`none`/empty are both falsy).  Key validation (non-empty list, no empty
key, no case-sensitively duplicate key) runs before the document is opened
or touched, so the error branches do not depend on `doc`.  On the success
path the mapping dict equals the blank-value-filtered pair list because
the keys are then unique. -/
def lease_population_replace (mappingRaw : Mapping) (partyType : Option String)
    (trackChanges : Bool) (doc : Doc) : Except String Doc :=
  let mapping := mappingRaw.filter (fun kv => pyStrip kv.2 ≠ "")
  if mappingRaw.isEmpty || mappingRaw.any (fun kv => kv.1 == "")
      || (mappingRaw.map (·.1)).dedup.length != mappingRaw.length then
    .error "Invalid or duplicate keys"
  else
    match partyType with
    | none => .error "Party type is required"
    | some pt =>
        if pt = "" then .error "Party type is required"
        else
          let doc1 :=
            if trackChanges then replace_placeholders_in_docx_with_track_changes doc mapping
            else replace_placeholders_in_docx doc mapping
          match remove_acknowledgment_blocks_enforced doc1.paragraphs pt with
          | (_, some e) => .error ("Failed to process DOCX: " ++ e)
          | (ps2, none) =>
              let doc2 : Doc := { doc1 with paragraphs := ps2 }
              if pt = "Individual" then
                .ok { doc2 with paragraphs := remove_entity_signature_block doc2.paragraphs }
              else .ok doc2

/-! ## Block generator (src/block_replacer.py)

Template files live on disk outside the Python sources; the file system is
passed in as `fs : String → Option String` (path → content). -/

/-- `getSigBlock` (src/block_replacer.py lines 456-526): resolve one or
two template filenames from the owner type and signature count, then load
each, degrading a missing file to a diagnostic string. -/
def getSigBlock (fs : String → Option String) (ownerType : String)
    (numSignatures : Nat) : Option String × Option String :=
  let names : Option String × Option String :=
    if ownerType = "his/her sole property" ∧ numSignatures = 1 then (some "SI1.txt", none)
    else if ownerType = "a married couple" ∧ numSignatures = 2 then (some "I1.txt", some "I1.txt")
    else if ownerType = "Corporation" then
      (some "E1.txt", if numSignatures = 2 then some "E1.txt" else none)
    else if ownerType = "LLC" then
      (some "E1.txt", if numSignatures = 2 then some "E1.txt" else none)
    else if ownerType = "LP" then
      (some "E1.txt", if numSignatures = 2 then some "E1.txt" else none)
    else if ownerType = "Trust" then
      (some "E1.txt", if numSignatures = 2 then some "E1.txt" else none)
    else if ownerType = "Sole Owner, married couple" ∧ numSignatures = 2 then
      (some "I1.txt", some "SI1.txt")
    else if strContains (pyLower ownerType) "individual" then
      (some "I1.txt", if numSignatures = 2 then some "I1.txt" else none)
    else (some "E1.txt", if numSignatures = 2 then some "E1.txt" else none)
  let loadC := fun (f : Option String) => f.map fun fn =>
    match fs ("templates/sigBlocks/" ++ fn) with
    | some c => pyStrip c
    | none => "Template file '" ++ fn ++ "' not found at templates/sigBlocks/" ++ fn
  (loadC names.1, loadC names.2)

/-- `notrary_generator` (src/block_replacer.py lines 535-547): the notary
template file, or a not-found message. -/
def notrary_generator (fs : String → Option String) : String :=
  match fs "templates/Notorary/notrary.txt" with
  | some c => c
  | none => "Notary block template file 'notrary.txt' not found."

/-- `generator` (src/block_replacer.py lines 552-587): the couple special
cases, then `num_signatures` iterations each appending a signature block
and, when requested and the notary content is non-empty (Python
truthiness), a notary block. -/
def generator (fs : String → Option String) (ownerType : String) (isNotary : Bool)
    (notaryBlock : String) (numSignatures : Nat) : String :=
  let notaryContent := notrary_generator fs
  let filecontent := getSigBlock fs ownerType numSignatures
  let sigB1 := filecontent.1.getD ""
  let sigB2 := filecontent.2.getD ""
  if ownerType = "Sole owner, married couple" ∧ isNotary then
    sigB1 ++ (if isNotary ∧ notaryContent ≠ "" then "\n\n" ++ notaryContent else "")
      ++ "\n\n" ++ sigB2
      ++ (if isNotary ∧ notaryContent ≠ "" then "\n\n" ++ notaryContent else "")
  else if ownerType = "Sole owner, married couple" ∧ ¬isNotary then
    sigB1 ++ "\n\n" ++ sigB2
  else
    (List.range numSignatures).foldl
      (fun acc _ =>
        if isNotary ∧ notaryContent ≠ "" then
          acc ++ "\n\n" ++ sigB1 ++ "\n\n" ++ notaryContent
        else acc ++ "\n\n" ++ sigB1)
      ""

/-! ## Image embedding (src/lease_population/image_handler.py)

Byte strings are `List Nat`.  The two external library calls are
parameters: `b64decode` (Python's `base64.b64decode`, `Except.error` for a
raised decode exception) and `pillow` (the `Image.open` + optional
watermark + `optimize_image` pipeline of lines 218-235, yielding the
re-encoded bytes or the exception message; its floating-point width
arithmetic and metadata dict are not modelled). -/

/-- `self.supported_formats` (src/lease_population/image_handler.py lines
24-32), in insertion order. -/
def supported_formats : List (String × List Nat) :=
  [("PNG", [0x89, 0x50, 0x4E, 0x47, 0x0D, 0x0A, 0x1A, 0x0A]),
   ("JPEG", [0xFF, 0xD8, 0xFF]),
   ("GIF", [0x47, 0x49, 0x46, 0x38, 0x37, 0x61]),
   ("GIF89a", [0x47, 0x49, 0x46, 0x38, 0x39, 0x61]),
   ("BMP", [0x42, 0x4D]),
   ("TIFF", [0x49, 0x49, 0x2A, 0x00]),
   ("TIFF_BE", [0x4D, 0x4D, 0x00, 0x2A])]

/-- `validate_image_file` (src/lease_population/image_handler.py lines
43-67): `(is_valid, format_name, error_message)`. -/
def validate_image_file (imageBytes : List Nat) : Bool × String × String :=
  if imageBytes.length > 50 * 1024 * 1024 then (false, "", "File too large (max 50MB)")
  else if imageBytes.length < 8 then (false, "", "File too small to be a valid image")
  else
    match supported_formats.find? (fun fh => fh.2.isPrefixOf imageBytes) with
    | some fh => (true, fh.1, "")
    | none => (false, "", "Unsupported image format")

/-- The result dict of `embed_image_enhanced` (metadata omitted, see
above). -/
structure EmbedResult where
  success : Bool
  error : Option String
  placeholdersFound : Nat
deriving DecidableEq, Repr

/-- `process_paragraph` of `embed_image_enhanced` (lines 241-262): a
paragraph containing the placeholder is cleared and replaced by a single
centered picture run (center alignment is enum value 1) with 12pt spacing
after. -/
def embedParagraph (optBytes : List Nat) (placeholder : String) (p : Paragraph) : Paragraph :=
  if strContains (paraText p) placeholder then
    { runs := [{ text := "", pic := some optBytes }], alignment := some 1, spaceAfter := some 12 }
  else p

/-- The paragraph scan of `embed_image_enhanced` (lines 264-279): body
paragraphs, table cells one level deep, header and footer paragraphs. -/
def embedScanDoc (optBytes : List Nat) (placeholder : String) (doc : Doc) : Doc :=
  { paragraphs := doc.paragraphs.map (embedParagraph optBytes placeholder),
    tables := doc.tables.map fun t =>
      Table.mk (t.rows.map fun row =>
        TRow.mk (row.cells.map fun c =>
          Cell.mk (c.paragraphs.map (embedParagraph optBytes placeholder)) c.tables)),
    sections := doc.sections.map fun s =>
      { header := Cell.mk (s.header.paragraphs.map (embedParagraph optBytes placeholder))
          s.header.tables,
        footer := Cell.mk (s.footer.paragraphs.map (embedParagraph optBytes placeholder))
          s.footer.tables } }

/-- `placeholder_count` over the same scan. -/
def countPlaceholderParas (placeholder : String) (doc : Doc) : Nat :=
  let hit := fun (p : Paragraph) => strContains (paraText p) placeholder
  doc.paragraphs.countP hit
    + (doc.tables.map fun t =>
        ((t.rows.map fun row =>
          ((row.cells.map fun c => c.paragraphs.countP hit).sum)).sum)).sum
    + (doc.sections.map fun s =>
        s.header.paragraphs.countP hit + s.footer.paragraphs.countP hit).sum

/-- `ImageEmbeddingHandler.embed_image_enhanced`
(src/lease_population/image_handler.py lines 171-296). -/
def embed_image_enhanced (b64decode : String → Except String (List Nat))
    (pillow : List Nat → Option String → String → Except String (List Nat))
    (doc : Doc) (imageData : String) (placeholder : String)
    (watermarkText : Option String) (targetFormat : String) : EmbedResult × Doc :=
  if imageData = "" then
    ({ success := false, error := some "Invalid image data: must be non-empty string",
       placeholdersFound := 0 }, doc)
  else
    match b64decode imageData with
    | .error e =>
        ({ success := false, error := some ("Failed to decode base64 image data: " ++ e),
           placeholdersFound := 0 }, doc)
    | .ok imageBytes =>
        match validate_image_file imageBytes with
        | (false, _, msg) =>
            ({ success := false, error := some msg, placeholdersFound := 0 }, doc)
        | (true, _, _) =>
            match pillow imageBytes watermarkText targetFormat with
            | .error e =>
                ({ success := false, error := some ("Failed to process image: " ++ e),
                   placeholdersFound := 0 }, doc)
            | .ok optimizedBytes =>
                let cnt := countPlaceholderParas placeholder doc
                let doc2 := embedScanDoc optimizedBytes placeholder doc
                if cnt = 0 then
                  ({ success := false,
                     error := some ("Placeholder '" ++ placeholder ++ "' not found in document"),
                     placeholdersFound := 0 }, doc2)
                else ({ success := true, error := none, placeholdersFound := cnt }, doc2)

end XlToPptx

namespace XlToPptx

/-- A one-run paragraph, for concrete instances. -/
def para1 (t : String) : Paragraph :=
  { runs := [{ text := t }] }

/-- Total character count across a run sequence. -/
def totalTextLength (runs : List Run) : Nat :=
  (runs.map (·.text.length)).sum

/-- The Boolean condition under which one key-loop iteration of the
track-changes `process_paragraph` (src/app.py lines 724-741) fires on a
run: non-blank value and verbatim variant — or differing bracketless
form — contained in the run's own text. -/
def trackEntryMatches (kv : String × String) (r : Run) : Bool :=
  pyStrip kv.2 ≠ ""
    && (strContains r.text (pyStrip kv.1)
        || (strip_brackets (pyStrip kv.1) ≠ pyStrip kv.1
            && strContains r.text (strip_brackets (pyStrip kv.1))))

/-! Concrete fixtures for counterexamples and witnesses. -/

/-- The spec's formatting example: second run bold, the others not. -/
def c3Runs : List Run :=
  [{ text := "Dear ", font := { bold := some false } },
   { text := "[Grantor Name]", font := { bold := some true } },
   { text := ", you...", font := { bold := some false } }]

def c3Para : Paragraph :=
  { runs := c3Runs }

def c3Map : Mapping :=
  [("[Grantor Name]", "Alice")]

/-- Two runs for the shorter-replacement instance of claim 2. -/
def c2Runs : List Run :=
  [{ text := "[Name]" }, { text := "!" }]

/-- A paragraph whose placeholder `[Name]` spans its two runs. -/
def spanPara : Paragraph :=
  { runs := [{ text := "[Na" }, { text := "me]" }] }

/-- A document with one placeholder-bearing paragraph and no tables. -/
def docC7 : Doc :=
  { paragraphs := [para1 "Lease for [State] records"], tables := [], sections := [] }

/-- A document with no image placeholder anywhere. -/
def docC9 : Doc :=
  { paragraphs := [para1 "no image goes here"], tables := [], sections := [] }

/-- The eight PNG magic bytes: a minimal byte string that validates. -/
def pngBytes : List Nat :=
  [0x89, 0x50, 0x4E, 0x47, 0x0D, 0x0A, 0x1A, 0x0A]

/-- A base64 decoder stub for the witness: every input decodes to the PNG
magic bytes. -/
def decodeC9 : String → Except String (List Nat) :=
  fun _ => .ok pngBytes

/-- A Pillow-pipeline stub for the witness: optimization succeeds. -/
def pillowC9 : List Nat → Option String → String → Except String (List Nat) :=
  fun _ _ _ => .ok [1, 2, 3]

/-- A paragraph list with no section markers at all. -/
def psC6 : List Paragraph :=
  [para1 "plain paragraph"]

/-- A document with two complete entity sections (for claim 4). -/
def psC4 : List Paragraph :=
  [para1 "[Trust/Entity Name]", para1 "My Commission Expires:___",
   para1 "[Trust/Entity Name]", para1 "My Commission Expires:___"]

/-! ## Helper lemmas about the redistribution step -/

theorem mk_append (a b : List Char) : String.mk a ++ String.mk b = String.mk (a ++ b) := rfl

theorem redistribute_length (f : Fmt) :
    ∀ (l : List Char) (rs : List Run), (redistribute f l rs).length = rs.length := by
  intro l rs
  induction rs generalizing l with
  | nil => simp [redistribute]
  | cons r rest ih => simp [redistribute, ih]

theorem redistribute_font (f : Fmt) :
    ∀ (rs : List Run) (l : List Char), ∀ r ∈ redistribute f l rs, r.font = f := by
  intro rs
  induction rs with
  | nil => intro l r hr; simp [redistribute] at hr
  | cons r0 rest ih =>
      intro l r hr
      simp only [redistribute, List.mem_cons] at hr
      rcases hr with h | h
      · subst h; rfl
      · exact ih _ r h

theorem redistribute_joined (f : Fmt) :
    ∀ (rs : List Run) (l : List Char),
      joinedText (redistribute f l rs) = String.mk (l.take (totalTextLength rs)) := by
  intro rs
  induction rs with
  | nil => intro l; simp [redistribute, joinedText, totalTextLength]
  | cons r rest ih =>
      intro l
      simp only [redistribute, joinedText, ih, totalTextLength, List.map_cons, List.sum_cons]
      rw [show (String.mk (l.take r.text.length) ++ String.mk ((l.drop r.text.length).take ((rest.map (·.text.length)).sum)))
            = String.mk (l.take r.text.length ++ (l.drop r.text.length).take ((rest.map (·.text.length)).sum)) from rfl]
      rw [← List.take_add]

theorem redistribute_drop_all_empty (f : Fmt) :
    ∀ (rs : List Run) (i : Nat) (l : List Char),
      l.length ≤ totalTextLength (rs.take i) →
      ((redistribute f l rs).drop i).all (fun r => r.text == "") = true := by
  intro rs
  induction rs with
  | nil => intro i l _; simp [redistribute]
  | cons r rest ih =>
      intro i l hl
      cases i with
      | zero =>
          simp only [List.take_zero, totalTextLength, List.map_nil, List.sum_nil,
            Nat.le_zero, List.length_eq_zero] at hl
          subst hl
          have hrest : ((redistribute f [] rest).all fun r => r.text == "") = true := by
            have h0 := ih 0 [] (by simp [totalTextLength])
            simpa using h0
          simp only [List.drop_zero, redistribute, List.all_cons, List.take_nil, List.drop_nil]
          rw [Bool.and_eq_true]
          exact ⟨by decide, hrest⟩
      | succ j =>
          simp only [List.take_succ_cons, totalTextLength, List.map_cons, List.sum_cons] at hl
          simp only [redistribute, List.drop_succ_cons]
          apply ih j
          simp only [totalTextLength, List.length_drop, List.map_take]
          rw [List.map_take] at hl
          omega

/-- After the gate fires, no run list means no change; spelled out for reuse. -/
theorem processParagraph_no_hit (m : Mapping) (p : Paragraph)
    (h : gateHit (joinedText p.runs) m = false) : processParagraph m p = p := by
  unfold processParagraph
  by_cases he : p.runs.isEmpty
  · simp [he]
  · simp [he, h]

/-- If no entry with a non-blank value occurs verbatim in the joined text,
the gate is false. -/
theorem gateHit_false (m : Mapping) (joined : String)
    (h : ∀ kv ∈ m, pyStrip kv.2 ≠ "" → strContains joined (pyStrip kv.1) = false) :
    gateHit joined m = false := by
  unfold gateHit
  rw [List.any_eq_false]
  intro kv hkv
  by_cases hb : pyStrip kv.2 = ""
  · simp [hb]
  · simp [hb, normalize_placeholder_key, h kv hkv hb]

/-- The length of the joined text is the total run text length. -/
theorem joinedText_length : ∀ (rs : List Run), (joinedText rs).length = totalTextLength rs := by
  intro rs
  induction rs with
  | nil => simp [joinedText, totalTextLength]
  | cons r rest ih => simp [joinedText, totalTextLength, String.length_append, ih]

/-! ## Claim 1 -/

/-- C1, counterexample.  The claim says substitution changes *no occurrence
other than the verbatim key*.  In a paragraph that contains the verbatim
key `[Name]` together with the superstring `[Names]`, `replace_in_runs`
also replaces the bracketless form `Name` (src/app.py lines 671-674), so
the `[Names]` occurrence is corrupted to `[Xs]`: the paragraph becomes
`"X [Xs]"` instead of the claimed `"X [Names]"`. -/
theorem C1_counterexample :
    processParagraph [("[Name]", "X")] (para1 "[Name] [Names]")
      = { runs := [{ text := "X [Xs]" }] } := by decide

/-- C1, amended: the *paragraph gate* is verbatim-only — a paragraph in
whose joined text no stripped key of a non-blank-valued entry occurs
verbatim (in particular one containing only the superstring `[Names]` or
the case-mismatch `[name]`) is left completely unchanged; but once the
verbatim key occurs, the key loop also replaces the bracketless form of
the key, so occurrences other than the verbatim key can change
(`"[Name] [Names]"` becomes `"X [Xs]"`). -/
theorem C1_exact_match_amended :
    (∀ (m : Mapping) (p : Paragraph),
        (∀ kv ∈ m, pyStrip kv.2 ≠ "" → strContains (joinedText p.runs) (pyStrip kv.1) = false) →
        processParagraph m p = p)
    ∧ applyMapping "[Name] [Names]" [("[Name]", "X")] = "X [Xs]" := by
  constructor
  · intro m p h
    exact processParagraph_no_hit m p (gateHit_false m _ h)
  · decide

/-- C1, witness: superstring-only and case-mismatch-only paragraphs are
unchanged. -/
theorem C1_witness :
    processParagraph [("[Name]", "X")] (para1 "[Names]") = para1 "[Names]"
    ∧ processParagraph [("[Name]", "X")] (para1 "[name]") = para1 "[name]" :=
  ⟨C1_exact_match_amended.1 [("[Name]", "X")] (para1 "[Names]") (by decide),
   C1_exact_match_amended.1 [("[Name]", "X")] (para1 "[name]") (by decide)⟩

/-! ## Claim 2 -/

/-- C2, counterexample.  The claim says the total character count across
the original runs is preserved.  Replacing the single run `"[Name]"`
(6 characters) by `"X"` leaves a paragraph whose total run text length is
1, not 6: when the replacement is shorter, the total shrinks. -/
theorem C2_counterexample :
    ¬ totalTextLength ((processParagraph [("[Name]", "X")] (para1 "[Name]")).runs)
        = totalTextLength (para1 "[Name]").runs := by decide

/-- C2, amended.  `replace_in_runs` redistributes the post-substitution
text over the original run sequence by original run lengths: the run count
is unchanged; the concatenation of the new runs is the new text truncated
at the original total length (so the total character count is
`min (new length) (original total)` — preserved only when the replacement
is at least as long, with any surplus silently dropped); once the new text
is exhausted, all remaining runs hold empty strings.  The core.py variant
instead assigns the entire new text to the first run and empties all
later runs. -/
theorem C2_redistribution_amended :
    ∀ (m : Mapping) (runs : List Run),
      (replace_in_runs runs m).length = runs.length
      ∧ joinedText (replace_in_runs runs m)
          = String.mk ((applyMapping (joinedText runs) m).data.take (totalTextLength runs))
      ∧ totalTextLength (replace_in_runs runs m)
          = min (applyMapping (joinedText runs) m).length (totalTextLength runs)
      ∧ (∀ i : Nat,
          (applyMapping (joinedText runs) m).length ≤ totalTextLength (runs.take i) →
          ((replace_in_runs runs m).drop i).all (fun r => r.text == "") = true)
      ∧ (replace_in_runs_core runs m).map (·.text)
          = (if runs.isEmpty then []
             else applyMapping (joinedText runs) m :: List.replicate (runs.length - 1) "") := by
  intro m runs
  have hmapempty : ∀ (l : List Run),
      (l.map (fun r2 => { r2 with text := "" })).map (·.text) = List.replicate l.length "" := by
    intro l
    induction l with
    | nil => simp
    | cons a t ih => simp [ih, List.replicate_succ]
  cases runs with
  | nil =>
      refine ⟨rfl, rfl, ?_, ?_, rfl⟩
      · show (0 : Nat) = min (applyMapping (joinedText []) m).length 0
        omega
      · intro i _
        show (([] : List Run).drop i).all (fun r => r.text == "") = true
        simp
  | cons r rest =>
      refine ⟨?_, ?_, ?_, ?_, ?_⟩
      · simpa [replace_in_runs] using
          redistribute_length r.font (applyMapping (joinedText (r :: rest)) m).data (r :: rest)
      · simpa [replace_in_runs] using
          redistribute_joined r.font (r :: rest) (applyMapping (joinedText (r :: rest)) m).data
      · have hj := redistribute_joined r.font (r :: rest)
          (applyMapping (joinedText (r :: rest)) m).data
        have hcalc : totalTextLength
            (redistribute r.font (applyMapping (joinedText (r :: rest)) m).data (r :: rest))
            = min (totalTextLength (r :: rest)) (applyMapping (joinedText (r :: rest)) m).data.length := by
          rw [← joinedText_length, hj]
          show ((applyMapping (joinedText (r :: rest)) m).data.take (totalTextLength (r :: rest))).length
              = min (totalTextLength (r :: rest)) (applyMapping (joinedText (r :: rest)) m).data.length
          exact List.length_take _ _
        show totalTextLength
            (redistribute r.font (applyMapping (joinedText (r :: rest)) m).data (r :: rest))
            = min (applyMapping (joinedText (r :: rest)) m).length (totalTextLength (r :: rest))
        rw [hcalc, Nat.min_comm]
        rfl
      · intro i hi
        have := redistribute_drop_all_empty r.font (r :: rest) i
          (applyMapping (joinedText (r :: rest)) m).data hi
        simpa [replace_in_runs] using this
      · simp [replace_in_runs_core, hmapempty, List.replicate]

/-- C2, witness: on a two-run paragraph with a shorter replacement, the run
count is preserved and the trailing run is emptied. -/
theorem C2_witness :
    (replace_in_runs c2Runs [("[Name]", "X")]).length = c2Runs.length
    ∧ ((replace_in_runs c2Runs [("[Name]", "X")]).drop 1).all (fun r => r.text == "") = true :=
  ⟨(C2_redistribution_amended [("[Name]", "X")] c2Runs).1,
   (C2_redistribution_amended [("[Name]", "X")] c2Runs).2.2.2.1 1 (by decide)⟩

/-! ## Claim 3 -/

/-- C3, counterexample.  On the spec's own example the visible text is as
claimed, but the characters at the position of the original second run
(run index 1 after redistribution, holding `"Alice, you..."`) carry
`bold = some false`: `replace_in_runs` overwrites every run's formatting
with the *first* run's attributes (src/app.py lines 681-685), so the
original bold span does *not* still carry bold formatting. -/
theorem C3_counterexample :
    joinedText ((processParagraph c3Map c3Para).runs) = "Dear Alice, you..."
    ∧ ((processParagraph c3Map c3Para).runs.getD 1 { text := "" }).font.bold = some false := by
  refine ⟨by decide, by decide⟩

/-- C3, amended: substitution yields the claimed visible text
`"Dear Alice, you..."`, but applies the FIRST run's four font attributes
to every run of the paragraph, so the span of the original bold second run
now carries the first run's non-bold formatting. -/
theorem C3_formatting_amended :
    (∀ (m : Mapping) (r : Run) (rest : List Run),
        ∀ r2 ∈ replace_in_runs (r :: rest) m, r2.font = r.font)
    ∧ joinedText ((processParagraph c3Map c3Para).runs) = "Dear Alice, you..."
    ∧ (processParagraph c3Map c3Para).runs.map (·.font.bold)
        = [some false, some false, some false] := by
  refine ⟨?_, by decide, by decide⟩
  intro m r rest r2 h2
  exact redistribute_font r.font (r :: rest) _ r2 h2

/-- C3, witness: the redistributed second run's formatting equals the
first run's. -/
theorem C3_witness :
    ((replace_in_runs c3Runs c3Map).getD 1 { text := "" }).font = { bold := some false } := by
  have hmem : (replace_in_runs c3Runs c3Map).getD 1 { text := "" }
      ∈ replace_in_runs c3Runs c3Map := by decide
  exact C3_formatting_amended.1 c3Map { text := "Dear ", font := { bold := some false } }
    [{ text := "[Grantor Name]", font := { bold := some true } },
     { text := ", you...", font := { bold := some false } }]
    _ hmem

/-! ## Shared lemmas about the marker scan -/

/-- If the start marker occurs in no paragraph, the scan ends with no open
start and the accumulator unchanged. -/
theorem fsiGo_noStart (lowS lowE : String) :
    ∀ (ps : List Paragraph) (i : Nat) (acc : List (Nat × Nat)),
      (∀ p ∈ ps, strContains (pyLower (pyStrip (paraText p))) lowS = false) →
      fsiGo lowS lowE ps i none acc = (acc, none) := by
  intro ps
  induction ps with
  | nil => intro i acc _; rfl
  | cons p rest ih =>
      intro i acc h
      have hp : ¬ strContains (pyLower (pyStrip (paraText p))) lowS = true := by
        simp [h p (by simp)]
      simp only [fsiGo]
      rw [if_neg hp]
      exact ih (i + 1) acc (fun q hq => h q (by simp [hq]))

/-- Every pair the scan collects is well-formed: start strictly before
end. -/
theorem fsiGo_pairs (lowS lowE : String) :
    ∀ (ps : List Paragraph) (i : Nat) (start : Option Nat) (acc : List (Nat × Nat)),
      (∀ se ∈ acc, se.1 < se.2) → (∀ s, start = some s → s < i) →
      ∀ se ∈ (fsiGo lowS lowE ps i start acc).1, se.1 < se.2 := by
  intro ps
  induction ps with
  | nil => intro i start acc hacc _ se hse; exact hacc se hse
  | cons p rest ih =>
      intro i start acc hacc hstart se hse
      cases start with
      | none =>
          by_cases hc : strContains (pyLower (pyStrip (paraText p))) lowS = true
          · simp only [fsiGo] at hse
            rw [if_pos hc] at hse
            exact ih (i + 1) (some i) acc hacc (by intro s hs; cases hs; omega) se hse
          · simp only [fsiGo] at hse
            rw [if_neg hc] at hse
            exact ih (i + 1) none acc hacc (by intro s hs; cases hs) se hse
      | some s0 =>
          have hs0 : s0 < i := hstart s0 rfl
          by_cases hc : strContains (pyLower (pyStrip (paraText p))) lowE = true
          · simp only [fsiGo] at hse
            rw [if_pos hc] at hse
            refine ih (i + 1) none (acc ++ [(s0, i)]) ?_ (by intro s hs; cases hs) se hse
            intro se2 hse2
            rcases List.mem_append.mp hse2 with h2 | h2
            · exact hacc se2 h2
            · simp at h2; subst h2; omega
          · simp only [fsiGo] at hse
            rw [if_neg hc] at hse
            exact ih (i + 1) (some s0) acc hacc (by intro s hs; cases hs; omega) se hse

/-- A non-empty start marker occurring in no paragraph makes
`find_section_indices` raise the START-marker error, whose message embeds
every paragraph of the document as context. -/
theorem find_section_indices_no_start (ps : List Paragraph) (sm em lbl : String)
    (hsm : sm ≠ "")
    (h : ∀ p ∈ ps, strContains (pyLower (pyStrip (paraText p))) (pyLower (pyStrip sm)) = false) :
    find_section_indices ps sm em lbl = .error (startMarkerErrorMsg sm lbl ps) := by
  unfold find_section_indices
  rw [fsiGo_noStart (pyLower (pyStrip sm)) (pyLower (pyStrip em)) ps 0 [] h]
  simp only [List.isEmpty_nil, Bool.true_and]
  rw [if_pos (by simp [hsm])]

/-! ## Claim 4 -/

/-- C4, counterexample.  The claim says ambiguous (multiple) matches for a
marker pair raise a hard failure.  On a document holding two complete
entity sections, `find_section_indices` raises nothing and returns both
pairs: multiplicity is not an error. -/
theorem C4_counterexample :
    find_section_indices psC4 "[trust/entity name]" "my commission expires:___"
        "Entity Section 1"
      = .ok [(0, 1), (2, 3)] := by rfl

/-- C4, amended: every collected `(start, end)` pair is well-formed
(start strictly precedes end, in document order), and a start marker with
zero occurrences raises a hard failure (as does an unterminated start, by
the `match` on the final open-start state in `find_section_indices`);
but multiple well-formed occurrences of a marker pair are not ambiguous
errors — all of them are collected and removed. -/
theorem C4_markers_amended :
    (∀ (ps : List Paragraph) (sm em lbl : String) (l : List (Nat × Nat)),
        find_section_indices ps sm em lbl = .ok l → ∀ se ∈ l, se.1 < se.2)
    ∧ (∀ (ps : List Paragraph) (sm em lbl : String),
        sm ≠ "" →
        (∀ p ∈ ps, strContains (pyLower (pyStrip (paraText p))) (pyLower (pyStrip sm)) = false) →
        find_section_indices ps sm em lbl = .error (startMarkerErrorMsg sm lbl ps)) := by
  constructor
  · intro ps sm em lbl l hok se hse
    have hp := fsiGo_pairs (pyLower (pyStrip sm)) (pyLower (pyStrip em)) ps 0 none []
      (by intro se2 h2; simp at h2) (by intro s2 h2; cases h2)
    unfold find_section_indices at hok
    rcases hfsi : fsiGo (pyLower (pyStrip sm)) (pyLower (pyStrip em)) ps 0 none []
      with ⟨indices, start⟩
    rw [hfsi] at hok hp
    cases start with
    | some s0 => simp at hok
    | none =>
        dsimp only at hok
        split at hok
        · exact absurd hok (by simp)
        · simp only [Except.ok.injEq] at hok
          subst hok
          exact hp se hse
  · exact find_section_indices_no_start

/-- C4, witness: zero occurrences of the start marker raise the hard
START-marker failure. -/
theorem C4_witness :
    find_section_indices psC6 "[trust/entity name]" "my commission expires:___"
        "Entity Section 1"
      = .error (startMarkerErrorMsg "[trust/entity name]" "Entity Section 1" psC6) :=
  C4_markers_amended.2 psC6 "[trust/entity name]" "my commission expires:___"
    "Entity Section 1" (by decide) (by decide)

/-! ## Claim 6 -/

/-- C6, confirmed.  `remove_acknowledgment_blocks_enforced` resolves every
marker pair of the selected variant before deleting anything, so whenever
it raises (second component `some e`) the paragraph list is returned
exactly as it was — no partial removal; and an absent required start
marker does raise, with the error message (`startMarkerErrorMsg`) carrying
the paragraph context the claim requires. -/
theorem C6_atomic_marker_failure :
    (∀ (ps : List Paragraph) (gt e : String),
        (remove_acknowledgment_blocks_enforced ps gt).2 = some e →
        (remove_acknowledgment_blocks_enforced ps gt).1 = ps)
    ∧ (∀ ps : List Paragraph,
        (∀ p ∈ ps, strContains (pyLower (pyStrip (paraText p))) "[trust/entity name]" = false) →
        remove_acknowledgment_blocks_enforced ps "Individual"
          = (ps, some (startMarkerErrorMsg "[trust/entity name]" "Entity Section 1" ps))) := by
  constructor
  · intro ps gt e h
    by_cases hgt : pyLower (pyStrip gt) = "individual"
    · rcases h1 : find_section_indices ps "[trust/entity name]" "my commission expires:___"
          "Entity Section 1" with e1 | l1
      · simp [remove_acknowledgment_blocks_enforced, hgt, h1]
      · rcases h2 : find_section_indices ps "acknowledgment block for entity or trust"
            "(signature of notary public)" "Entity Section 2" with e2 | l2
        · simp [remove_acknowledgment_blocks_enforced, hgt, h1, h2]
        · simp [remove_acknowledgment_blocks_enforced, hgt, h1, h2] at h
    · rcases h1 : find_section_indices ps "grantor:" "name:" "Individual Section 1"
          with e1 | l1
      · simp [remove_acknowledgment_blocks_enforced, hgt, h1]
      · rcases h2 : find_section_indices ps "acknowledgment block for individual"
            "(signature of notary public)" "Individual Section 2" with e2 | l2
        · simp [remove_acknowledgment_blocks_enforced, hgt, h1, h2]
        · simp [remove_acknowledgment_blocks_enforced, hgt, h1, h2] at h
  · intro ps h
    have hg : pyLower (pyStrip "Individual") = "individual" := rfl
    have h1 := find_section_indices_no_start ps "[trust/entity name]"
      "my commission expires:___" "Entity Section 1" (by decide)
      (by intro p hp; exact h p hp)
    simp [remove_acknowledgment_blocks_enforced, hg, h1]

/-- C6, witness: on a document without the entity start marker, the
individual-variant removal reports the error and returns the paragraphs
untouched. -/
theorem C6_witness :
    remove_acknowledgment_blocks_enforced psC6 "Individual"
      = (psC6, some (startMarkerErrorMsg "[trust/entity name]" "Entity Section 1" psC6)) :=
  C6_atomic_marker_failure.2 psC6 (by decide)

/-! ## Claim 5 -/

/-- C5, counterexample.  The claim says the mapper rejects colliding or
empty keys with a validation error before any processing.  The enhanced
processors' mapper `_parse_mapping` (src/lease_population/core.py, one of
the claim's own sources) accepts both: a duplicate key silently collapses
to its last value and an empty key passes through, and processing then
proceeds on the document. -/
theorem C5_counterexample :
    parse_mapping (some [("[A]", "1"), ("[A]", "2")]) = .ok [("[A]", "2")]
    ∧ parse_mapping (some [("", "x")]) = .ok [("", "x")] :=
  ⟨rfl, rfl⟩

/-- C5, amended: the app.py endpoint `lease_population_replace` does
reject an empty mapping, an empty key, or two case-sensitively colliding
keys with its validation error before the document is opened — uniformly
in the document, so no document is read or rewritten; but the enhanced
core.py path (`_parse_mapping`) performs no such validation. -/
theorem C5_validation_amended :
    ∀ (raw : Mapping) (pt : Option String) (tc : Bool) (doc : Doc),
      (raw = [] ∨ (∃ kv ∈ raw, kv.1 = "") ∨ ¬ (raw.map (·.1)).Nodup) →
      lease_population_replace raw pt tc doc = .error "Invalid or duplicate keys" := by
  intro raw pt tc doc h
  have hcond : (raw.isEmpty || raw.any (fun kv => kv.1 == "")
      || (raw.map (·.1)).dedup.length != raw.length) = true := by
    rcases h with h | h | h
    · subst h; simp
    · rcases h with ⟨kv, hm, hk⟩
      have hany : raw.any (fun kv => kv.1 == "") = true :=
        List.any_eq_true.mpr ⟨kv, hm, by simp [hk]⟩
      simp [hany]
    · have hne : (raw.map (·.1)).dedup.length ≠ raw.length := by
        intro he
        have hsub : (raw.map (·.1)).dedup.Sublist (raw.map (·.1)) := List.dedup_sublist _
        have heq : (raw.map (·.1)).dedup = raw.map (·.1) :=
          hsub.eq_of_length (by rw [he, List.length_map])
        exact h (heq ▸ List.nodup_dedup _)
      simp [bne_iff_ne, hne]
  unfold lease_population_replace
  rw [if_pos hcond]

/-- C5, witness: a duplicate-key mapping is rejected with the validation
error on an arbitrary concrete document. -/
theorem C5_witness :
    lease_population_replace [("[A]", "1"), ("[A]", "2")] (some "Individual") false
        { paragraphs := [], tables := [], sections := [] }
      = .error "Invalid or duplicate keys" :=
  C5_validation_amended [("[A]", "1"), ("[A]", "2")] (some "Individual") false
    { paragraphs := [], tables := [], sections := [] }
    (Or.inr (Or.inr (by decide)))

/-! ## Claim 7: helper lemmas -/

theorem applyEntry_blank (t k v : String) (hv : pyStrip v = "") :
    applyEntry t (k, v) = t := by
  simp [applyEntry, hv]

theorem applyMapping_append_blank (t : String) (m₁ m₂ : Mapping) (k v : String)
    (hv : pyStrip v = "") :
    applyMapping t (m₁ ++ (k, v) :: m₂) = applyMapping t (m₁ ++ m₂) := by
  simp [applyMapping, List.foldl_append, List.foldl_cons,
    applyEntry_blank (List.foldl applyEntry t m₁) k v hv]

theorem gateHit_append_blank (joined : String) (m₁ m₂ : Mapping) (k v : String)
    (hv : pyStrip v = "") :
    gateHit joined (m₁ ++ (k, v) :: m₂) = gateHit joined (m₁ ++ m₂) := by
  simp [gateHit, List.any_append, List.any_cons, hv]

theorem replace_in_runs_append_blank (runs : List Run) (m₁ m₂ : Mapping) (k v : String)
    (hv : pyStrip v = "") :
    replace_in_runs runs (m₁ ++ (k, v) :: m₂) = replace_in_runs runs (m₁ ++ m₂) := by
  cases runs with
  | nil => rfl
  | cons r rest =>
      simp only [replace_in_runs, applyMapping_append_blank _ _ _ _ _ hv]

theorem processParagraph_append_blank (m₁ m₂ : Mapping) (k v : String)
    (hv : pyStrip v = "") :
    processParagraph (m₁ ++ (k, v) :: m₂) = processParagraph (m₁ ++ m₂) := by
  funext p
  unfold processParagraph
  rw [gateHit_append_blank _ _ _ _ _ hv, replace_in_runs_append_blank _ _ _ _ _ hv]

/-! The traversal of an identity paragraph transformation is the
identity, by mutual induction over the table tree. -/

mutual
theorem tableMapParas_id (f : Paragraph → Paragraph) (hf : ∀ p, f p = p) :
    ∀ t : Table, tableMapParas f t = t
  | .mk rows => by
      simp only [tableMapParas, rowsMapParas_id f hf rows]
theorem rowsMapParas_id (f : Paragraph → Paragraph) (hf : ∀ p, f p = p) :
    ∀ rs : List TRow, rowsMapParas f rs = rs
  | [] => by simp only [rowsMapParas]
  | r :: rs => by
      simp only [rowsMapParas, rowMapParas_id f hf r, rowsMapParas_id f hf rs]
theorem rowMapParas_id (f : Paragraph → Paragraph) (hf : ∀ p, f p = p) :
    ∀ r : TRow, rowMapParas f r = r
  | .mk cells => by
      simp only [rowMapParas, cellsMapParas_id f hf cells]
theorem cellsMapParas_id (f : Paragraph → Paragraph) (hf : ∀ p, f p = p) :
    ∀ cs : List Cell, cellsMapParas f cs = cs
  | [] => by simp only [cellsMapParas]
  | c :: cs => by
      simp only [cellsMapParas, cellMapParas_id f hf c, cellsMapParas_id f hf cs]
theorem cellMapParas_id (f : Paragraph → Paragraph) (hf : ∀ p, f p = p) :
    ∀ c : Cell, cellMapParas f c = c
  | .mk ps ts => by
      simp only [cellMapParas, funext hf, List.map_id',
        tablesMapParas_id (fun x => x) (fun _ => rfl) ts]
theorem tablesMapParas_id (f : Paragraph → Paragraph) (hf : ∀ p, f p = p) :
    ∀ ts : List Table, tablesMapParas f ts = ts
  | [] => by simp only [tablesMapParas]
  | t :: ts => by
      simp only [tablesMapParas, tableMapParas_id f hf t, tablesMapParas_id f hf ts]
end

/-! ## Claim 7 -/

/-- C7, confirmed.  An entry whose value strips to empty contributes
nothing to substitution: dropping it from the mapping leaves the whole
document result identical, and with such an entry alone the entire
document — every placeholder occurrence in it — is returned untouched
(the gate and the key loop both skip blank values, src/app.py lines
666-668 and 691). -/
theorem C7_empty_value_skip :
    ∀ (doc : Doc) (m₁ m₂ : Mapping) (k v : String),
      pyStrip v = "" →
      replace_placeholders_in_docx doc (m₁ ++ (k, v) :: m₂)
          = replace_placeholders_in_docx doc (m₁ ++ m₂)
      ∧ replace_placeholders_in_docx doc [(k, v)] = doc := by
  intro doc m₁ m₂ k v hv
  have hfun := processParagraph_append_blank m₁ m₂ k v hv
  refine ⟨by simp only [replace_placeholders_in_docx, hfun], ?_⟩
  have hid : ∀ p, processParagraph [(k, v)] p = p := fun p =>
    processParagraph_no_hit _ p (by simp [gateHit, hv])
  cases doc with
  | mk ps ts ss =>
      simp only [replace_placeholders_in_docx]
      have h1 : ps.map (processParagraph [(k, v)]) = ps := by
        rw [funext hid, List.map_id']
      have h3 : ss.map (fun sec =>
          ({ header := cellMapParas (processParagraph [(k, v)]) sec.header,
             footer := cellMapParas (processParagraph [(k, v)]) sec.footer } : Sec)) = ss := by
        have : ∀ sec : Sec,
            ({ header := cellMapParas (processParagraph [(k, v)]) sec.header,
               footer := cellMapParas (processParagraph [(k, v)]) sec.footer } : Sec) = sec := by
          intro sec
          cases sec with
          | mk hd ft => simp [cellMapParas_id _ hid]
        rw [List.map_congr_left (fun sec _ => this sec), List.map_id']
      rw [h1, tablesMapParas_id _ hid ts, h3]

/-- C7, witness: the mapping `[State] → ""` leaves a document containing
the `[State]` token byte-identical. -/
theorem C7_witness :
    replace_placeholders_in_docx docC7 [("[State]", "")] = docC7 :=
  (C7_empty_value_skip docC7 [] [] "[State]" "" rfl).2

/-! ## Claim 8 -/

/-- C8, confirmed.  With the individual template `I1.txt` present with
content `s` and a non-empty notary template, `generator` scales with
`numSignatures`: without notary, 3 signatures produce exactly 3 copies of
the (stripped) individual block, each preceded and separated by a blank
line; with notary, 2 signatures produce 2 signature blocks each
immediately followed by one notary block. -/
theorem C8_generator_scaling :
    ∀ (fs : String → Option String) (s n : String),
      fs "templates/sigBlocks/I1.txt" = some s →
      fs "templates/Notorary/notrary.txt" = some n →
      n ≠ "" →
      generator fs "individual" false "" 3
          = "\n\n" ++ pyStrip s ++ "\n\n" ++ pyStrip s ++ "\n\n" ++ pyStrip s
      ∧ generator fs "individual" true "" 2
          = "\n\n" ++ pyStrip s ++ "\n\n" ++ n ++ "\n\n" ++ pyStrip s ++ "\n\n" ++ n := by
  intro fs s n hs hn hne
  have hind : strContains (pyLower "individual") "individual" = true := rfl
  have hdn : ("" : String).data = [] := rfl
  have hsig3 : getSigBlock fs "individual" 3 = (some (pyStrip s), none) := by
    simp [getSigBlock, hs, hind]
  have hsig2 : getSigBlock fs "individual" 2 = (some (pyStrip s), some (pyStrip s)) := by
    simp [getSigBlock, hs, hind]
  have hnot : notrary_generator fs = n := by
    simp [notrary_generator, hn]
  constructor
  · rw [generator, hnot, hsig3]
    simp only [Option.getD_some, Option.getD_none]
    rw [if_neg (by simp), if_neg (by simp)]
    rw [show List.range 3 = [0, 1, 2] from rfl]
    simp only [List.foldl_cons, List.foldl_nil]
    rw [if_neg (by simp), if_neg (by simp), if_neg (by simp)]
    apply String.ext
    simp [String.data_append, hdn]
  · rw [generator, hnot, hsig2]
    simp only [Option.getD_some, Option.getD_none]
    rw [if_neg (by simp), if_neg (by simp)]
    rw [show List.range 2 = [0, 1] from rfl]
    simp only [List.foldl_cons, List.foldl_nil]
    rw [if_pos (by exact ⟨trivial, hne⟩), if_pos (by exact ⟨trivial, hne⟩)]
    apply String.ext
    simp [String.data_append, hdn]

/-- C8, witness: with concrete one-word templates, the two scalings
evaluate to the stated strings. -/
theorem C8_witness :
    generator (fun p => if p = "templates/sigBlocks/I1.txt" then some "SIG"
        else if p = "templates/Notorary/notrary.txt" then some "NOT" else none)
        "individual" false "" 3
      = "\n\nSIG\n\nSIG\n\nSIG"
    ∧ generator (fun p => if p = "templates/sigBlocks/I1.txt" then some "SIG"
        else if p = "templates/Notorary/notrary.txt" then some "NOT" else none)
        "individual" true "" 2
      = "\n\nSIG\n\nNOT\n\nSIG\n\nNOT" := by
  have h := C8_generator_scaling
    (fun p => if p = "templates/sigBlocks/I1.txt" then some "SIG"
      else if p = "templates/Notorary/notrary.txt" then some "NOT" else none)
    "SIG" "NOT" (by decide) (by decide) (by decide)
  exact ⟨by rw [h.1]; decide, by rw [h.2]; decide⟩

/-! ## Claim 9: helper lemmas -/

theorem embedParagraph_noHit (optBytes : List Nat) (placeholder : String) (p : Paragraph)
    (h : strContains (paraText p) placeholder = false) :
    embedParagraph optBytes placeholder p = p := by
  simp [embedParagraph, h]

theorem mapEmbed_id (optBytes : List Nat) (placeholder : String) (ps : List Paragraph)
    (h : ps.countP (fun p => strContains (paraText p) placeholder) = 0) :
    ps.map (embedParagraph optBytes placeholder) = ps := by
  have hall := List.countP_eq_zero.mp h
  rw [List.map_congr_left
    (fun p hp => embedParagraph_noHit optBytes placeholder p (by simpa using hall p hp))]
  exact List.map_id' ps

/-- A zero placeholder count means the scan changes nothing. -/
theorem embedScanDoc_noMatch (optBytes : List Nat) (placeholder : String) (doc : Doc)
    (h : countPlaceholderParas placeholder doc = 0) :
    embedScanDoc optBytes placeholder doc = doc := by
  cases doc with
  | mk ps ts ss =>
      unfold countPlaceholderParas at h
      dsimp only at h
      have hps : ps.countP (fun p => strContains (paraText p) placeholder) = 0 := by omega
      have hts : (ts.map fun t =>
          ((t.rows.map fun row =>
            ((row.cells.map fun c =>
              c.paragraphs.countP fun p => strContains (paraText p) placeholder).sum)).sum)).sum
          = 0 := by omega
      have hss : (ss.map fun sec =>
          (sec.header.paragraphs.countP fun p => strContains (paraText p) placeholder)
            + sec.footer.paragraphs.countP fun p => strContains (paraText p) placeholder).sum
          = 0 := by omega
      unfold embedScanDoc
      have htabs : (ts.map fun t =>
          Table.mk (t.rows.map fun row =>
            TRow.mk (row.cells.map fun c =>
              Cell.mk (c.paragraphs.map (embedParagraph optBytes placeholder)) c.tables))) = ts := by
        rw [List.map_congr_left ?_]
        · exact List.map_id' ts
        intro t ht
        have ht0 := (List.sum_eq_zero_iff.mp hts) _ (List.mem_map_of_mem _ ht)
        have hrows : (t.rows.map fun row =>
            TRow.mk (row.cells.map fun c =>
              Cell.mk (c.paragraphs.map (embedParagraph optBytes placeholder)) c.tables))
            = t.rows := by
          rw [List.map_congr_left ?_]
          · exact List.map_id' t.rows
          intro row hrow
          have hrow0 := (List.sum_eq_zero_iff.mp ht0) _ (List.mem_map_of_mem _ hrow)
          have hcells : (row.cells.map fun c =>
              Cell.mk (c.paragraphs.map (embedParagraph optBytes placeholder)) c.tables)
              = row.cells := by
            rw [List.map_congr_left ?_]
            · exact List.map_id' row.cells
            intro c hc
            have hc0 := (List.sum_eq_zero_iff.mp hrow0) _ (List.mem_map_of_mem _ hc)
            cases c with
            | mk cps cts =>
                simp only [Cell.paragraphs, Cell.tables] at hc0 ⊢
                rw [mapEmbed_id _ _ _ hc0]
          cases row with
          | mk cells => simp only [TRow.cells] at hcells ⊢; rw [hcells]
        cases t with
        | mk rows => simp only [Table.rows] at hrows ⊢; rw [hrows]
      have hsecs : (ss.map fun sec =>
          ({ header := Cell.mk (sec.header.paragraphs.map (embedParagraph optBytes placeholder))
               sec.header.tables,
             footer := Cell.mk (sec.footer.paragraphs.map (embedParagraph optBytes placeholder))
               sec.footer.tables } : Sec)) = ss := by
        rw [List.map_congr_left ?_]
        · exact List.map_id' ss
        intro sec hsec
        have hsec0 := (List.sum_eq_zero_iff.mp hss) _ (List.mem_map_of_mem _ hsec)
        have hh : (sec.header.paragraphs.countP
            fun p => strContains (paraText p) placeholder) = 0 := by omega
        have hf : (sec.footer.paragraphs.countP
            fun p => strContains (paraText p) placeholder) = 0 := by omega
        cases sec with
        | mk hd ft =>
            cases hd with
            | mk hps2 hts2 =>
                cases ft with
                | mk fps2 fts2 =>
                    simp only [Sec.mk.injEq, Cell.paragraphs, Cell.tables] at *
                    rw [mapEmbed_id _ _ _ hh, mapEmbed_id _ _ _ hf]
                    exact ⟨rfl, rfl⟩
      rw [mapEmbed_id _ _ _ hps, htabs, hsecs]

/-! ## Claim 9 -/

/-- C9, confirmed.  When the (decodable, valid, optimizable) image's
placeholder occurs in no scanned paragraph, `embed_image_enhanced` returns
`success = false` with the error naming the placeholder, a zero found
count, and the document exactly as it was: no paragraph cleared, no
picture inserted. -/
theorem C9_missing_placeholder :
    ∀ (b64decode : String → Except String (List Nat))
      (pillow : List Nat → Option String → String → Except String (List Nat))
      (doc : Doc) (imageData placeholder : String) (wm : Option String) (tf : String)
      (bytes optBytes : List Nat),
      imageData ≠ "" →
      b64decode imageData = .ok bytes →
      (validate_image_file bytes).1 = true →
      pillow bytes wm tf = .ok optBytes →
      countPlaceholderParas placeholder doc = 0 →
      embed_image_enhanced b64decode pillow doc imageData placeholder wm tf
        = ({ success := false,
             error := some ("Placeholder '" ++ placeholder ++ "' not found in document"),
             placeholdersFound := 0 }, doc) := by
  intro b64 pil doc imageData ph wm tf bytes optBytes hne hdec hval hpil hcnt
  rcases hv : validate_image_file bytes with ⟨b, fmt, msg⟩
  rw [hv] at hval
  dsimp only at hval
  subst hval
  unfold embed_image_enhanced
  rw [if_neg hne, hdec]
  dsimp only
  rw [hv]
  dsimp only
  rw [hpil]
  dsimp only
  rw [if_pos hcnt, embedScanDoc_noMatch optBytes ph doc hcnt]

/-- C9, witness: concrete decoder/pipeline stubs, a valid PNG byte string,
and a document without the placeholder. -/
theorem C9_witness :
    embed_image_enhanced decodeC9 pillowC9 docC9 "QUJD" "[EXHIBIT_A_IMAGE_1]" none "PNG"
      = ({ success := false,
           error := some ("Placeholder '" ++ "[EXHIBIT_A_IMAGE_1]" ++ "' not found in document"),
           placeholdersFound := 0 }, docC9) :=
  C9_missing_placeholder decodeC9 pillowC9 docC9 "QUJD" "[EXHIBIT_A_IMAGE_1]" none "PNG"
    pngBytes [1, 2, 3] (by decide) rfl (by decide) rfl (by decide)

/-! ## Claim 10: helper lemmas -/

theorem processRunTrack_skip (kv : String × String) (l : Mapping) (r : Run)
    (h : trackEntryMatches kv r = false) :
    processRunTrack (kv :: l) r = processRunTrack l r := by
  by_cases hb : pyStrip kv.2 = ""
  · simp only [processRunTrack]
    rw [if_pos hb]
  · have hnb : decide (pyStrip kv.2 ≠ "") = true := by simp [hb]
    simp only [trackEntryMatches, hnb, Bool.true_and] at h
    rcases Bool.or_eq_false_iff.mp h with ⟨hA, hB⟩
    simp only [processRunTrack]
    rw [if_neg hb, if_neg (by simp [hA]),
      if_neg (by intro hc; rw [hc] at hB; exact absurd hB (by decide))]

theorem processRunTrack_noMatch :
    ∀ (m : Mapping) (r : Run), (∀ kv ∈ m, trackEntryMatches kv r = false) →
      processRunTrack m r = r := by
  intro m
  induction m with
  | nil => intro r _; rfl
  | cons kv rest ih =>
      intro r h
      rw [processRunTrack_skip kv rest r (h kv (by simp))]
      exact ih r (fun x hx => h x (by simp [hx]))

theorem processRunTrackCore_skip (kv : String × String) (l : Mapping) (r : Run)
    (h : trackEntryMatches kv r = false) :
    processRunTrackCore (kv :: l) r = processRunTrackCore l r := by
  by_cases hb : pyStrip kv.2 = ""
  · simp only [processRunTrackCore]
    rw [if_pos hb]
  · have hnb : decide (pyStrip kv.2 ≠ "") = true := by simp [hb]
    simp only [trackEntryMatches, hnb, Bool.true_and] at h
    rcases Bool.or_eq_false_iff.mp h with ⟨hA, hB⟩
    simp only [processRunTrackCore]
    rw [if_neg hb, if_neg (by simp [hA])]

theorem processRunTrackCore_noMatch :
    ∀ (m : Mapping) (r : Run), (∀ kv ∈ m, trackEntryMatches kv r = false) →
      processRunTrackCore m r = r := by
  intro m
  induction m with
  | nil => intro r _; rfl
  | cons kv rest ih =>
      intro r h
      rw [processRunTrackCore_skip kv rest r (h kv (by simp))]
      exact ih r (fun x hx => h x (by simp [hx]))

theorem processRunTrack_firstMatch :
    ∀ (m₁ : Mapping) (kv : String × String) (m₂ : Mapping) (r : Run),
      (∀ kv' ∈ m₁, trackEntryMatches kv' r = false) → trackEntryMatches kv r = true →
      processRunTrack (m₁ ++ kv :: m₂) r = processRunTrack [kv] r := by
  intro m₁
  induction m₁ with
  | nil =>
      intro kv m₂ r _ hm
      have hnb : ¬ pyStrip kv.2 = "" := by
        intro hb
        simp [trackEntryMatches, hb] at hm
      by_cases hA : strContains r.text (pyStrip kv.1) = true
      · simp only [List.nil_append, processRunTrack]
        rw [if_neg hnb, if_neg hnb, if_pos hA, if_pos hA]
      · have hB : (decide (strip_brackets (pyStrip kv.1) ≠ pyStrip kv.1)
            && strContains r.text (strip_brackets (pyStrip kv.1))) = true := by
          have hm2 := hm
          simp only [trackEntryMatches, Bool.and_eq_true, Bool.or_eq_true] at hm2
          rcases hm2 with ⟨_, h1 | h1⟩
          · exact absurd h1 hA
          · simp only [Bool.and_eq_true]
            exact h1
        simp only [List.nil_append, processRunTrack]
        rw [if_neg hnb, if_neg hnb, if_neg hA, if_neg hA, if_pos hB, if_pos hB]
  | cons kv' rest ih =>
      intro kv m₂ r h1 hm
      rw [List.cons_append, processRunTrack_skip kv' (rest ++ kv :: m₂) r (h1 kv' (by simp))]
      exact ih kv m₂ r (fun x hx => h1 x (by simp [hx])) hm

/-! ## Claim 10 -/

/-- C10, confirmed.  In track-changes mode each run is scanned in
isolation: if no run of a paragraph contains, by itself, the stripped key
or its bracketless form of any non-blank-valued entry, the paragraph is
returned unchanged by both the app.py and the core.py track-changes
processors — in particular an occurrence of a key spanning two or more
runs is left unreplaced; within a single run the key loop stops at the
first matching entry (later entries are never consulted); and, by
contrast, the normal mode run on the same split-placeholder paragraph does
substitute, because it matches against the concatenated run text. -/
theorem C10_track_changes_isolation :
    (∀ (m : Mapping) (p : Paragraph),
        (∀ r ∈ p.runs, ∀ kv ∈ m, pyStrip kv.2 ≠ "" →
            strContains r.text (pyStrip kv.1) = false
            ∧ strContains r.text (strip_brackets (pyStrip kv.1)) = false) →
        processParagraphTrack m p = p ∧ processParagraphTrackCore m p = p)
    ∧ (∀ (m₁ : Mapping) (kv : String × String) (m₂ : Mapping) (r : Run),
        (∀ kv' ∈ m₁, trackEntryMatches kv' r = false) → trackEntryMatches kv r = true →
        processRunTrack (m₁ ++ kv :: m₂) r = processRunTrack [kv] r)
    ∧ processParagraphTrack [("[Name]", "X")] spanPara = spanPara
    ∧ processParagraph [("[Name]", "X")] spanPara
        = { runs := [{ text := "X" }, { text := "" }] } := by
  refine ⟨?_, processRunTrack_firstMatch, by decide, by decide⟩
  intro m p h
  have hfalse : ∀ r ∈ p.runs, ∀ kv ∈ m, trackEntryMatches kv r = false := by
    intro r hr kv hkv
    by_cases hb : pyStrip kv.2 = ""
    · simp [trackEntryMatches, hb]
    · obtain ⟨hA, hB⟩ := h r hr kv hkv hb
      simp [trackEntryMatches, hb, hA, hB]
  cases p with
  | mk runs al sp =>
      constructor
      · simp only [processParagraphTrack]
        rw [List.map_congr_left
          (fun r hr => processRunTrack_noMatch m r (hfalse r hr)), List.map_id']
      · simp only [processParagraphTrackCore]
        rw [List.map_congr_left
          (fun r hr => processRunTrackCore_noMatch m r (hfalse r hr)), List.map_id']

/-- C10, witness: with the first mapping entry matching the run, the
second entry is never consulted. -/
theorem C10_witness :
    processRunTrack ([] ++ ("[Name]", "X") :: [("[B]", "C")]) { text := "a [Name] b" }
      = processRunTrack [("[Name]", "X")] { text := "a [Name] b" } :=
  C10_track_changes_isolation.2.1 [] ("[Name]", "X") [("[B]", "C")] { text := "a [Name] b" }
    (by simp) (by decide)

end XlToPptx
